import Mathlib

/-!
# qSlicerSegmentationsReader::load

A shallow embedding of `Modules/Loadable/Segmentations/qSlicerSegmentationsReader.cxx`.

`load` is glue code around three collaborators (the STL mesh reader, the segmentations
module logic and the MRML scene).  The embedding passes the adapter state, the scene and a
log of collaborator invocations explicitly in a `World`; what the collaborators answer is
supplied by an `Environment` (and by the logic object held in the private data), so every
theorem below is quantified over all possible answers.

Text is modelled by `String` (a sequence of code points).  The conversions the source applies
before handing text to the collaborators (`toLatin1`, `constData`, `c_str`) are modelled
explicitly.  The scene returned by `mrmlScene()` is taken to exist.
-/

namespace Slicer

/-! ## Text conversions used by `load` -/

/-- Latin-1 image of one character: characters above U+00FF have no Latin-1 encoding and are
replaced by a question mark. -/
def latin1Char (c : Char) : Char :=
  if c.toNat ≤ 255 then c else '?'

/-- The conversion `QString::toLatin1`. -/
def toLatin1 (s : String) : String :=
  String.mk (s.data.map latin1Char)

/-- The text a callee taking `const char*` reads from `QByteArray::constData`: everything up to
the first NUL. -/
def constData (s : String) : String :=
  String.mk (s.data.takeWhile (fun c => decide (c ≠ Char.ofNat 0)))

/-- The text a callee taking `const char*` reads from `std::string::c_str`. -/
def c_str (s : String) : String :=
  constData s

/-- The conversion `QString::toStdString`; the encoded text carries the same code points. -/
def toStdString (s : String) : String :=
  s

/-- A text survives `toLatin1().constData()` unchanged exactly when all its characters are
Latin-1 and none is NUL. -/
def isLatin1CString (s : String) : Prop :=
  ∀ c ∈ s.data, c.toNat ≤ 255 ∧ c ≠ Char.ofNat 0

instance (s : String) : Decidable (isLatin1CString s) :=
  inferInstanceAs (Decidable (∀ c ∈ s.data, c.toNat ≤ 255 ∧ c ≠ Char.ofNat 0))

/-- The file-name component of a path: what follows the last `/` (paths are taken with the
POSIX separator). -/
def fileNameComponent (path : List Char) : List Char :=
  (path.reverse.takeWhile (fun c => decide (c ≠ '/'))).reverse

/-- The last extension of a file name: from its last `.` to the end, empty without a `.`. -/
def lastExtension (name : List Char) : List Char :=
  if '.' ∈ name then '.' :: (name.reverse.takeWhile (fun c => decide (c ≠ '.'))).reverse else []

/-- Modelled from the spec: `vtkMRMLStorageNode::GetLowercaseExtensionFromFileName`, which is
not part of the reader's source file.  The spec only says that `load` branches on the
"lowercase file extension"; this is the last extension of the file-name component, with the
letters `A`-`Z` lowered. -/
def GetLowercaseExtensionFromFileName (filename : String) : String :=
  String.mk ((lastExtension (fileNameComponent filename.data)).map Char.toLower)

/-- The library call `QFileInfo(fileName).baseName()`: the file-name component up to, and not
including, its first `.`. -/
def baseName (fileName : String) : String :=
  String.mk ((fileNameComponent fileName.data).takeWhile (fun c => decide (c ≠ '.')))

/-! ## The property bag -/

/-- The values a property can hold, as far as `load` converts them. -/
inductive QVariant where
  | invalid
  | bool (b : Bool)
  | string (s : String)
deriving DecidableEq, Repr

/-- The conversion `QVariant::toString`. -/
def QVariant.toString : QVariant → String
  | .invalid => ""
  | .bool true => "true"
  | .bool false => "false"
  | .string s => s

/-- The conversion `QVariant::toBool`: a text is true unless its lower-case content is empty,
`0` or `false`. -/
def QVariant.toBool : QVariant → Bool
  | .invalid => false
  | .bool b => b
  | .string s =>
    let lower := s.data.map Char.toLower
    !(decide (lower = []) || decide (lower = ['0']) || decide (lower = ['f', 'a', 'l', 's', 'e']))

/-- The map `qSlicerIO::IOProperties` (a `QVariantMap`). -/
abbrev IOProperties := List (String × QVariant)

/-- The query `QMap::contains`. -/
def IOProperties.contains (properties : IOProperties) (key : String) : Bool :=
  (properties.lookup key).isSome

/-- The read `QMap::operator[] const`: the stored value, or a default-constructed one. -/
def IOProperties.value (properties : IOProperties) (key : String) : QVariant :=
  (properties.lookup key).getD QVariant.invalid

/-! ## Segments, nodes and the scene -/

/-- Modelled from the spec: the in-memory vertex/triangle mesh `vtkPolyData`, whose declaration
is not part of the reader's source file.  Coordinates are kept as opaque scalars. -/
structure vtkPolyData where
  points : List (Int × Int × Int)
  polys : List (Nat × Nat × Nat)
deriving DecidableEq, Repr

/-- Modelled from the spec: the constant returned by
`vtkSegmentationConverter::GetSegmentationClosedSurfaceRepresentationName()`. -/
def closedSurfaceRepresentationName : String :=
  "Closed surface"

/-- Modelled from the spec: `vtkSegment`, a named unit holding alternative representations. -/
structure vtkSegment where
  Name : String
  Representations : List (String × vtkPolyData)
deriving DecidableEq, Repr

/-- A freshly constructed segment (`vtkNew<vtkSegment>`). -/
def vtkSegment.new : vtkSegment :=
  ⟨"", []⟩

/-- The setter `vtkSegment::SetName`. -/
def vtkSegment.SetName (segment : vtkSegment) (name : String) : vtkSegment :=
  { segment with Name := name }

/-- The call `vtkSegment::AddRepresentation`: stores the data under the representation name,
replacing an earlier entry of that name. -/
def vtkSegment.AddRepresentation (segment : vtkSegment) (name : String) (data : vtkPolyData) :
    vtkSegment :=
  { segment with
    Representations := segment.Representations.filter (fun r => decide (r.1 ≠ name)) ++ [(name, data)] }

/-- Modelled from the spec: `vtkMRMLSegmentationDisplayNode`, reduced to the one setting `load`
touches. -/
structure vtkMRMLSegmentationDisplayNode where
  PreferredDisplayRepresentationName2D : String
deriving DecidableEq, Repr

/-- Modelled from the spec: `vtkMRMLSegmentationNode`, a scene object that owns segments and
designates a master representation. -/
structure vtkMRMLSegmentationNode where
  ID : String
  Name : String
  MasterRepresentationName : String
  Segments : List vtkSegment
  DisplayNode : Option vtkMRMLSegmentationDisplayNode
deriving DecidableEq, Repr

/-- Modelled from the spec: `vtkMRMLScene`, the registry that owns the loaded objects.  A node
pointer is the position of the node in `nodes`. -/
structure vtkMRMLScene where
  nodes : List vtkMRMLSegmentationNode
deriving DecidableEq, Repr

/-- Apply `f` to the element at position `p`. -/
def updateAt {α : Type} (f : α → α) : Nat → List α → List α
  | _, [] => []
  | 0, a :: l => f a :: l
  | p + 1, a :: l => a :: updateAt f p l

/-- A call of a mutating method on the node behind pointer `p`. -/
def vtkMRMLScene.onNode (scene : vtkMRMLScene) (p : Nat)
    (f : vtkMRMLSegmentationNode → vtkMRMLSegmentationNode) : vtkMRMLScene :=
  ⟨updateAt f p scene.nodes⟩

/-- The node behind pointer `p`. -/
def vtkMRMLScene.node? (scene : vtkMRMLScene) (p : Nat) : Option vtkMRMLSegmentationNode :=
  scene.nodes.get? p

/-- The scene takes ownership of a new node; the result is the scene and the node pointer. -/
def vtkMRMLScene.AddNode (scene : vtkMRMLScene) (node : vtkMRMLSegmentationNode) :
    vtkMRMLScene × Nat :=
  (⟨scene.nodes ++ [node]⟩, scene.nodes.length)

/-- The setter `vtkMRMLSegmentationNode::SetMasterRepresentationToClosedSurface`. -/
def vtkMRMLSegmentationNode.SetMasterRepresentationToClosedSurface
    (node : vtkMRMLSegmentationNode) : vtkMRMLSegmentationNode :=
  { node with MasterRepresentationName := closedSurfaceRepresentationName }

/-- The call `GetSegmentation()->AddSegment`. -/
def vtkMRMLSegmentationNode.AddSegment (node : vtkMRMLSegmentationNode) (segment : vtkSegment) :
    vtkMRMLSegmentationNode :=
  { node with Segments := node.Segments ++ [segment] }

/-- The setter `vtkMRMLNode::SetName`. -/
def vtkMRMLSegmentationNode.SetName (node : vtkMRMLSegmentationNode) (name : String) :
    vtkMRMLSegmentationNode :=
  { node with Name := name }

/-- The setter `vtkMRMLSegmentationDisplayNode::SetPreferredDisplayRepresentationName2D`, applied
to the display node of `node` when there is one. -/
def vtkMRMLSegmentationNode.SetPreferredDisplayRepresentationName2D
    (node : vtkMRMLSegmentationNode) (name : String) : vtkMRMLSegmentationNode :=
  { node with DisplayNode := node.DisplayNode.map (fun _ => ⟨name⟩) }

/-! ## Collaborators -/

/-- An invocation of a collaborator, as recorded in the log. -/
inductive Call where
  | stlReaderUpdate (fileName : String)
  | LoadSegmentationFromFile (fileName : String) (autoOpacities : Bool)
  | AddNewNodeByClass (className : String) (nodeBaseName : String)
  | GetUniqueNameByString (baseName : String)
deriving DecidableEq, Repr

/-- Whether the call goes to the loading subsystem. -/
def Call.isLogicCall : Call → Bool
  | .LoadSegmentationFromFile _ _ => true
  | _ => false

/-- The loading subsystem `vtkSlicerSegmentationsModuleLogic`: what `LoadSegmentationFromFile`
produces for a scene, a path and the auto-opacity flag (`none` is the null pointer).  The node
it produces belongs to the scene; `load` below puts it there. -/
structure vtkSlicerSegmentationsModuleLogic where
  LoadSegmentationFromFile : vtkMRMLScene → String → Bool → Option vtkMRMLSegmentationNode

/-- The private data of the reader: the logic pointer, `none` when it was never set. -/
structure qSlicerSegmentationsReaderPrivate where
  SegmentationsLogic : Option vtkSlicerSegmentationsModuleLogic

/-- The answers of the remaining collaborators.
* `stlReaderOutput path`: what `reader->GetOutput()` points to after `SetFileName(path)` and
  `Update()` (`none` is the null pointer);
* `AddNewNodeByClass scene className name`: the node the scene creates, as the scene initialised
  it, or `none` when the (down-cast) result is the null pointer;
* `CreateDefaultDisplayNodes node`: the display node `GetDisplayNode()` returns afterwards;
* `GetUniqueNameByString scene name`: the name the scene answers. -/
structure Environment where
  stlReaderOutput : String → Option vtkPolyData
  AddNewNodeByClass : vtkMRMLScene → String → String → Option vtkMRMLSegmentationNode
  CreateDefaultDisplayNodes : vtkMRMLSegmentationNode → Option vtkMRMLSegmentationDisplayNode
  GetUniqueNameByString : vtkMRMLScene → String → String

/-- The call `vtkMRMLSegmentationNode::CreateDefaultDisplayNodes`. -/
def vtkMRMLSegmentationNode.CreateDefaultDisplayNodes (env : Environment)
    (node : vtkMRMLSegmentationNode) : vtkMRMLSegmentationNode :=
  { node with DisplayNode := env.CreateDefaultDisplayNodes node }

/-! ## The reader -/

/-- Everything `load` can read or change: the loaded-node list of the reader, the scene, and
the log of collaborator invocations (oldest first). -/
structure World where
  loadedNodes : List String
  scene : vtkMRMLScene
  calls : List Call
deriving DecidableEq, Repr

/-- The setter `qSlicerIO::setLoadedNodes`. -/
def World.setLoadedNodes (w : World) (nodes : List String) : World :=
  { w with loadedNodes := nodes }

/-- A call of a mutating method on the node behind pointer `p` of the scene. -/
def World.onNode (w : World) (p : Nat)
    (f : vtkMRMLSegmentationNode → vtkMRMLSegmentationNode) : World :=
  { w with scene := w.scene.onNode p f }

/-- Append an invocation to the log. -/
def World.record (w : World) (c : Call) : World :=
  { w with calls := w.calls ++ [c] }

/-- How a call of `load` ends. -/
inductive Outcome where
  | returned (result : Bool) (w : World)
  | assertionFailed (w : World)
  | nullDereference (w : World)
deriving DecidableEq, Repr

/-- The world in which the call ended. -/
def Outcome.world : Outcome → World
  | .returned _ w => w
  | .assertionFailed w => w
  | .nullDereference w => w

/-- The method `qSlicerSegmentationsReader::load`.  `assertionsEnabled` says whether `Q_ASSERT`
is compiled in (it expands to nothing when `QT_NO_DEBUG` is defined). -/
def load (assertionsEnabled : Bool) (env : Environment) (d : qSlicerSegmentationsReaderPrivate)
    (properties : IOProperties) (w : World) : Outcome :=
  -- Q_ASSERT(properties.contains("fileName"));
  if assertionsEnabled && !properties.contains "fileName" then
    Outcome.assertionFailed w
  else
    let fileName := (properties.value "fileName").toString
    -- this->setLoadedNodes(QStringList());
    let w := w.setLoadedNodes []
    -- if (d->SegmentationsLogic.GetPointer() == 0) return false;
    match d.SegmentationsLogic with
    | none => Outcome.returned false w
    | some logic =>
      let extension := GetLowercaseExtensionFromFileName (toStdString fileName)
      if extension = ".stl" then
        -- reader->SetFileName(...); reader->Update(); reader->GetOutput()
        let w := w.record (Call.stlReaderUpdate (c_str (toStdString fileName)))
        match env.stlReaderOutput (c_str (toStdString fileName)) with
        -- if (!closedSurfaceRepresentation) return false;
        | none => Outcome.returned false w
        | some closedSurfaceRepresentation =>
          let name := baseName fileName
          let name := if properties.contains "name" then (properties.value "name").toString else name
          let segment := (vtkSegment.new.SetName (constData (toLatin1 name))).AddRepresentation
            closedSurfaceRepresentationName closedSurfaceRepresentation
          let w := w.record (Call.AddNewNodeByClass "vtkMRMLSegmentationNode" (constData (toLatin1 name)))
          match env.AddNewNodeByClass w.scene "vtkMRMLSegmentationNode" (constData (toLatin1 name)) with
          -- segmentationNode is used without a null check
          | none => Outcome.nullDereference w
          | some created =>
            let segmentationNode := (w.scene.AddNode created).2
            let w := { w with scene := (w.scene.AddNode created).1 }
            let w := w.onNode segmentationNode
              vtkMRMLSegmentationNode.SetMasterRepresentationToClosedSurface
            let w := w.onNode segmentationNode (vtkMRMLSegmentationNode.CreateDefaultDisplayNodes env)
            -- if (displayNode) displayNode->SetPreferredDisplayRepresentationName2D(...)
            let w := w.onNode segmentationNode
              (fun n => n.SetPreferredDisplayRepresentationName2D closedSurfaceRepresentationName)
            let w := w.onNode segmentationNode (fun n => n.AddSegment segment)
            -- this->setLoadedNodes(QStringList(QString(segmentationNode->GetID())));
            match w.scene.node? segmentationNode with
            | none => Outcome.nullDereference w
            | some node => Outcome.returned true (w.setLoadedNodes [node.ID])
      else
        let autoOpacities :=
          if properties.contains "autoOpacities" then (properties.value "autoOpacities").toBool else true
        let w := w.record (Call.LoadSegmentationFromFile (constData (toLatin1 fileName)) autoOpacities)
        match logic.LoadSegmentationFromFile w.scene (constData (toLatin1 fileName)) autoOpacities with
        -- if (!node) this->setLoadedNodes(QStringList()); return false;
        | none => Outcome.returned false (w.setLoadedNodes [])
        | some loaded =>
          let node := (w.scene.AddNode loaded).2
          let w := { w with scene := (w.scene.AddNode loaded).1 }
          let w := w.setLoadedNodes [loaded.ID]
          if properties.contains "name" then
            let requested := constData (toLatin1 (properties.value "name").toString)
            let uname := env.GetUniqueNameByString w.scene requested
            let w := w.record (Call.GetUniqueNameByString requested)
            Outcome.returned true (w.onNode node (fun n => n.SetName (c_str uname)))
          else
            Outcome.returned true w

/-! ## Vocabulary for the statements -/

/-- The file name `load` reads from the property bag. -/
def fileNameOf (properties : IOProperties) : String :=
  (properties.value "fileName").toString

/-- The auto-opacity flag `load` passes on: the property when present, true otherwise. -/
def autoOpacitiesOf (properties : IOProperties) : Bool :=
  if properties.contains "autoOpacities" then (properties.value "autoOpacities").toBool else true

/-- The name `load` hands to the segment and to the scene in the STL branch. -/
def stlNameOf (properties : IOProperties) : String :=
  constData (toLatin1
    (if properties.contains "name" then (properties.value "name").toString
     else baseName (fileNameOf properties)))

/-- The state of the node created in the STL branch once `load` is done with it. -/
def stlNodeOf (env : Environment) (created : vtkMRMLSegmentationNode) (segment : vtkSegment) :
    vtkMRMLSegmentationNode :=
  (((created.SetMasterRepresentationToClosedSurface).CreateDefaultDisplayNodes env
    ).SetPreferredDisplayRepresentationName2D closedSurfaceRepresentationName).AddSegment segment

/-- The calls logged after the first `n`. -/
def newCalls (n : Nat) (w : World) : List Call :=
  w.calls.drop n

/-! ## Concrete inputs used to exercise the theorems -/

/-- A segmentation node as a scene or a loader might hand it out. -/
def sampleNode : vtkMRMLSegmentationNode :=
  ⟨"vtkMRMLSegmentationNode1", "Segmentation", "Binary labelmap", [], none⟩

/-- A mesh with one triangle. -/
def sampleMesh : vtkPolyData :=
  ⟨[(0, 0, 0), (1, 0, 0), (0, 1, 0)], [(0, 1, 2)]⟩

/-- A mesh object without points or triangles. -/
def emptyMesh : vtkPolyData :=
  ⟨[], []⟩

/-- A world whose loaded-node list still holds the result of an earlier call. -/
def sampleWorld : World :=
  ⟨["vtkMRMLSegmentationNode7"], ⟨[]⟩, []⟩

/-- Collaborators that always succeed: the reader yields `sampleMesh`, the scene creates
`sampleNode` under the requested name and answers unique names by appending `_1`. -/
def sampleEnv : Environment where
  stlReaderOutput := fun _ => some sampleMesh
  AddNewNodeByClass := fun _ _ name => some { sampleNode with Name := name }
  CreateDefaultDisplayNodes := fun _ => some ⟨""⟩
  GetUniqueNameByString := fun _ name => name ++ "_1"

/-- Collaborators whose reader yields no output object. -/
def noOutputEnv : Environment :=
  { sampleEnv with stlReaderOutput := fun _ => none }

/-- Collaborators whose reader yields a mesh object without points or triangles. -/
def emptyOutputEnv : Environment :=
  { sampleEnv with stlReaderOutput := fun _ => some emptyMesh }

/-- A loading subsystem that always produces `sampleNode`. -/
def sampleLogic : vtkSlicerSegmentationsModuleLogic :=
  ⟨fun _ _ _ => some sampleNode⟩

/-- A loading subsystem that never produces an object. -/
def failingLogic : vtkSlicerSegmentationsModuleLogic :=
  ⟨fun _ _ _ => none⟩

/-- A request for an STL file without further properties. -/
def stlRequest : IOProperties :=
  [("fileName", QVariant.string "/data/liver.stl")]

/-- A request for an STL file with a display name made of Latin-1 characters. -/
def namedStlRequest : IOProperties :=
  [("fileName", QVariant.string "/data/liver.stl"), ("name", QVariant.string "Tumor")]

/-- A request for a segmentation container file with a display name. -/
def namedNrrdRequest : IOProperties :=
  [("fileName", QVariant.string "/data/liver.seg.nrrd"), ("name", QVariant.string "Liver")]

/-- A request for a segmentation container file with the auto-opacity flag switched off. -/
def plainNrrdRequest : IOProperties :=
  [("fileName", QVariant.string "/data/liver.seg.nrrd"), ("autoOpacities", QVariant.bool false)]

/-! ## Auxiliary facts -/

theorem updateAt_length_append {α : Type} (f : α → α) (l : List α) (a : α) :
    updateAt f l.length (l ++ [a]) = l ++ [f a] := by
  induction l with
  | nil => rfl
  | cons b l ih => simp [updateAt, ih]

theorem onNode_append_length (l : List vtkMRMLSegmentationNode) (node : vtkMRMLSegmentationNode)
    (f : vtkMRMLSegmentationNode → vtkMRMLSegmentationNode) :
    vtkMRMLScene.onNode ⟨l ++ [node]⟩ l.length f = ⟨l ++ [f node]⟩ := by
  simp [vtkMRMLScene.onNode, updateAt_length_append]

theorem node?_append_length (l : List vtkMRMLSegmentationNode) (node : vtkMRMLSegmentationNode) :
    vtkMRMLScene.node? ⟨l ++ [node]⟩ l.length = some node := by
  simp [vtkMRMLScene.node?, List.get?_eq_getElem?]

theorem takeWhile_reverse_append {q : Char → Bool} (a b : List Char) (h : ∀ c ∈ b, q c = true) :
    ((a ++ b).reverse.takeWhile q).reverse = (a.reverse.takeWhile q).reverse ++ b := by
  rw [List.reverse_append, List.takeWhile_append_of_pos (by simpa using h)]
  simp

theorem fileNameComponent_append (p e : List Char) (h : ∀ c ∈ e, c ≠ '/') :
    fileNameComponent (p ++ e) = fileNameComponent p ++ e := by
  unfold fileNameComponent
  exact takeWhile_reverse_append p e (by simpa using h)

theorem fileNameComponent_slash (dir e : List Char) (h : ∀ c ∈ e, c ≠ '/') :
    fileNameComponent (dir ++ '/' :: e) = e := by
  have hs : dir ++ '/' :: e = (dir ++ ['/']) ++ e := by simp
  rw [hs, fileNameComponent_append _ _ h]
  simp [fileNameComponent]

theorem lastExtension_dot (q e : List Char) (h : ∀ c ∈ e, c ≠ '.') :
    lastExtension (q ++ '.' :: e) = '.' :: e := by
  have hs : q ++ '.' :: e = (q ++ ['.']) ++ e := by simp
  unfold lastExtension
  rw [if_pos (by simp), hs, takeWhile_reverse_append _ _ (by simpa using h)]
  simp

/-- A text of Latin-1 characters without NUL passes through `toLatin1().constData()` unchanged. -/
theorem constData_toLatin1 (s : String) (h : isLatin1CString s) : constData (toLatin1 s) = s := by
  have h1 : s.data.map latin1Char = s.data := by
    conv_rhs => rw [← List.map_id s.data]
    apply List.map_congr_left
    intro c hc
    simp [latin1Char, (h c hc).1]
  have h2 : s.data.takeWhile (fun c => decide (c ≠ Char.ofNat 0)) = s.data := by
    rw [List.takeWhile_eq_self_iff]
    intro c hc
    simpa using (h c hc).2
  show String.mk ((String.mk (s.data.map latin1Char)).data.takeWhile _) = s
  simp only [h1, h2]

/-- A text without NUL is read in full through `c_str`. -/
theorem c_str_of_no_nul (s : String) (h : ∀ c ∈ s.data, c ≠ Char.ofNat 0) : c_str s = s := by
  have h2 : s.data.takeWhile (fun c => decide (c ≠ Char.ofNat 0)) = s.data := by
    rw [List.takeWhile_eq_self_iff]
    intro c hc
    simpa using h c hc
  show String.mk (s.data.takeWhile _) = s
  rw [h2]

/-- The base name of `dir/stem.stl` is `stem` when `stem` holds neither `/` nor `.`. -/
theorem baseName_of_stem (dir stem : String) (h : ∀ c ∈ stem.data, c ≠ '/' ∧ c ≠ '.') :
    baseName (dir ++ "/" ++ stem ++ ".stl") = stem := by
  have hd : (dir ++ "/" ++ stem ++ ".stl").data
      = dir.data ++ '/' :: (stem.data ++ ['.', 's', 't', 'l']) := by
    simp only [String.data_append]
    show (dir.data ++ ['/'] ++ stem.data) ++ ['.', 's', 't', 'l'] = _
    simp
  have hc : fileNameComponent (dir.data ++ '/' :: (stem.data ++ ['.', 's', 't', 'l']))
      = stem.data ++ ['.', 's', 't', 'l'] := by
    apply fileNameComponent_slash
    intro c hc
    rcases List.mem_append.1 hc with hc | hc
    · exact (h c hc).1
    · intro hEq
      subst hEq
      revert hc
      decide
  have ht : (stem.data ++ ['.', 's', 't', 'l']).takeWhile (fun c => decide (c ≠ '.')) = stem.data := by
    rw [List.takeWhile_append_of_pos (by intro c hc; simpa using (h c hc).2)]
    simp
  show String.mk ((fileNameComponent (dir ++ "/" ++ stem ++ ".stl").data).takeWhile _) = stem
  rw [hd, hc, ht]

/-- Whatever precedes it, an extension that reads `stl` in any letter case gives `.stl`. -/
theorem GetLowercaseExtensionFromFileName_stl (pre ext : String)
    (h : ext.data.map Char.toLower = ['s', 't', 'l']) :
    GetLowercaseExtensionFromFileName (pre ++ "." ++ ext) = ".stl" := by
  have hmem : ∀ c ∈ ext.data, c ≠ '/' ∧ c ≠ '.' := by
    intro c hc
    have hl : c.toLower ∈ ext.data.map Char.toLower := List.mem_map_of_mem _ hc
    rw [h] at hl
    constructor
    · intro hEq
      subst hEq
      revert hl
      decide
    · intro hEq
      subst hEq
      revert hl
      decide
  have hd : (pre ++ "." ++ ext).data = pre.data ++ '.' :: ext.data := by
    simp only [String.data_append]
    show (pre.data ++ ['.']) ++ ext.data = _
    simp
  have hs : pre.data ++ '.' :: ext.data = pre.data ++ ('.' :: ext.data) := rfl
  have hc : fileNameComponent (pre.data ++ '.' :: ext.data)
      = fileNameComponent pre.data ++ '.' :: ext.data := by
    apply fileNameComponent_append
    intro c hc
    rcases List.mem_cons.1 hc with hc | hc
    · rw [hc]; decide
    · exact (hmem c hc).1
  show String.mk ((lastExtension (fileNameComponent (pre ++ "." ++ ext).data)).map Char.toLower) = ".stl"
  rw [hd, hc, lastExtension_dot _ _ (fun c hc => (hmem c hc).2), List.map_cons, h]
  rfl

theorem newCalls_append (loadedNodes : List String) (scene : vtkMRMLScene) (old new : List Call) :
    newCalls old.length ⟨loadedNodes, scene, old ++ new⟩ = new := by
  simp [newCalls]

theorem load_no_logic_branch (assertionsEnabled : Bool) (env : Environment)
    (properties : IOProperties) (w : World)
    (hfile : properties.contains "fileName" = true) :
    load assertionsEnabled env ⟨none⟩ properties w = Outcome.returned false ⟨[], w.scene, w.calls⟩ := by
  simp [load, hfile, World.setLoadedNodes]

/-! ## Failure paths -/

/-- C1: when the property bag contains `fileName` and the segmentations logic was never set,
`load` returns false, the loaded-node list is empty afterwards whatever it held before, and
nothing was invoked: the log of collaborator calls and the scene are as before. -/
theorem load_without_logic (assertionsEnabled : Bool) (env : Environment)
    (properties : IOProperties) (w : World)
    (hfile : properties.contains "fileName" = true) :
    ∃ w', load assertionsEnabled env ⟨none⟩ properties w = Outcome.returned false w' ∧
      w'.loadedNodes = [] ∧ w'.calls = w.calls ∧ w'.scene = w.scene := by
  exact ⟨_, load_no_logic_branch assertionsEnabled env properties w hfile, rfl, rfl, rfl⟩

theorem load_without_logic_witness :
    IOProperties.contains [("fileName", QVariant.string "/data/liver.stl")] "fileName" = true ∧
    ∃ w', load true sampleEnv ⟨none⟩ [("fileName", QVariant.string "/data/liver.stl")] sampleWorld
        = Outcome.returned false w' ∧
      w'.loadedNodes = [] ∧ w'.calls = sampleWorld.calls ∧ w'.scene = sampleWorld.scene :=
  ⟨by decide, load_without_logic true sampleEnv _ sampleWorld (by decide)⟩

/-! ## The two branches of `load` in closed form -/

theorem load_stl_branch (assertionsEnabled : Bool) (env : Environment)
    (logic : vtkSlicerSegmentationsModuleLogic) (properties : IOProperties) (w : World)
    (hfile : properties.contains "fileName" = true)
    (hext : GetLowercaseExtensionFromFileName (fileNameOf properties) = ".stl") :
    load assertionsEnabled env ⟨some logic⟩ properties w =
      match env.stlReaderOutput (c_str (fileNameOf properties)) with
      | none => Outcome.returned false
          ⟨[], w.scene, w.calls ++ [Call.stlReaderUpdate (c_str (fileNameOf properties))]⟩
      | some mesh =>
        match env.AddNewNodeByClass w.scene "vtkMRMLSegmentationNode" (stlNameOf properties) with
        | none => Outcome.nullDereference
            ⟨[], w.scene, w.calls ++ [Call.stlReaderUpdate (c_str (fileNameOf properties)),
              Call.AddNewNodeByClass "vtkMRMLSegmentationNode" (stlNameOf properties)]⟩
        | some created => Outcome.returned true
            ⟨[created.ID],
             ⟨w.scene.nodes ++ [stlNodeOf env created
                ⟨stlNameOf properties, [(closedSurfaceRepresentationName, mesh)]⟩]⟩,
             w.calls ++ [Call.stlReaderUpdate (c_str (fileNameOf properties)),
              Call.AddNewNodeByClass "vtkMRMLSegmentationNode" (stlNameOf properties)]⟩ := by
  have hext2 : GetLowercaseExtensionFromFileName (toStdString (properties.value "fileName").toString)
      = ".stl" := hext
  simp only [load, hfile, hext2]
  simp only [fileNameOf, toStdString, stlNameOf]
  cases hm : env.stlReaderOutput (c_str (properties.value "fileName").toString) with
  | none => simp [World.record, World.setLoadedNodes]
  | some mesh =>
    by_cases hn : properties.contains "name" = true
    · simp only [hn, if_true]
      cases hc : env.AddNewNodeByClass w.scene "vtkMRMLSegmentationNode"
          (constData (toLatin1 (properties.value "name").toString)) with
      | none => simp [World.record, World.setLoadedNodes, hc]
      | some created =>
        simp [World.record, World.setLoadedNodes, World.onNode, hc, onNode_append_length, node?_append_length,
          stlNodeOf, vtkSegment.new, vtkSegment.SetName, vtkSegment.AddRepresentation,
          vtkMRMLSegmentationNode.AddSegment, vtkMRMLSegmentationNode.SetPreferredDisplayRepresentationName2D,
          vtkMRMLSegmentationNode.CreateDefaultDisplayNodes,
          vtkMRMLSegmentationNode.SetMasterRepresentationToClosedSurface, vtkMRMLScene.AddNode]
    · simp only [hn]
      cases hc : env.AddNewNodeByClass w.scene "vtkMRMLSegmentationNode"
          (constData (toLatin1 (baseName (properties.value "fileName").toString))) with
      | none => simp [World.record, World.setLoadedNodes, hc]
      | some created =>
        simp [World.record, World.setLoadedNodes, World.onNode, hc, onNode_append_length, node?_append_length,
          stlNodeOf, vtkSegment.new, vtkSegment.SetName, vtkSegment.AddRepresentation,
          vtkMRMLSegmentationNode.AddSegment, vtkMRMLSegmentationNode.SetPreferredDisplayRepresentationName2D,
          vtkMRMLSegmentationNode.CreateDefaultDisplayNodes,
          vtkMRMLSegmentationNode.SetMasterRepresentationToClosedSurface, vtkMRMLScene.AddNode]

theorem load_other_branch (assertionsEnabled : Bool) (env : Environment)
    (logic : vtkSlicerSegmentationsModuleLogic) (properties : IOProperties) (w : World)
    (hfile : properties.contains "fileName" = true)
    (hext : GetLowercaseExtensionFromFileName (fileNameOf properties) ≠ ".stl") :
    load assertionsEnabled env ⟨some logic⟩ properties w =
      match logic.LoadSegmentationFromFile w.scene (constData (toLatin1 (fileNameOf properties)))
          (autoOpacitiesOf properties) with
      | none => Outcome.returned false
          ⟨[], w.scene, w.calls ++ [Call.LoadSegmentationFromFile
            (constData (toLatin1 (fileNameOf properties))) (autoOpacitiesOf properties)]⟩
      | some loaded =>
        if properties.contains "name" = true then
          Outcome.returned true
            ⟨[loaded.ID],
             ⟨w.scene.nodes ++ [loaded.SetName (c_str (env.GetUniqueNameByString
                ⟨w.scene.nodes ++ [loaded]⟩
                (constData (toLatin1 (properties.value "name").toString))))]⟩,
             w.calls ++ [Call.LoadSegmentationFromFile
                (constData (toLatin1 (fileNameOf properties))) (autoOpacitiesOf properties),
              Call.GetUniqueNameByString (constData (toLatin1 (properties.value "name").toString))]⟩
        else
          Outcome.returned true
            ⟨[loaded.ID], ⟨w.scene.nodes ++ [loaded]⟩,
             w.calls ++ [Call.LoadSegmentationFromFile
                (constData (toLatin1 (fileNameOf properties))) (autoOpacitiesOf properties)]⟩ := by
  have hext2 : ¬ GetLowercaseExtensionFromFileName (toStdString (properties.value "fileName").toString)
      = ".stl" := hext
  simp only [load, hfile, hext2]
  simp only [fileNameOf, autoOpacitiesOf, World.record, World.setLoadedNodes, Bool.not_true,
    Bool.and_false, Bool.false_eq_true, if_false]
  generalize (if properties.contains "autoOpacities" = true then
    (properties.value "autoOpacities").toBool else true) = flag
  generalize constData (toLatin1 (properties.value "fileName").toString) = path
  cases hl : logic.LoadSegmentationFromFile w.scene path flag with
  | none => rfl
  | some loaded =>
    by_cases hn : properties.contains "name" = true
    · simp [World.onNode, hn, onNode_append_length, vtkMRMLScene.AddNode]
    · simp [hn, vtkMRMLScene.AddNode]

/-- C2: for a file whose lowercase extension is not `.stl`, with the logic configured, when
`LoadSegmentationFromFile` returns no object `load` returns false, the loaded-node list is empty
afterwards, the scene is unchanged (no object is renamed) and the only collaborator call made is
the one to the loading subsystem: the unique-name function is not asked, name property or not. -/
theorem load_other_no_object (assertionsEnabled : Bool) (env : Environment)
    (logic : vtkSlicerSegmentationsModuleLogic) (properties : IOProperties) (w : World)
    (hfile : properties.contains "fileName" = true)
    (hext : GetLowercaseExtensionFromFileName (fileNameOf properties) ≠ ".stl")
    (hnone : logic.LoadSegmentationFromFile w.scene (constData (toLatin1 (fileNameOf properties)))
      (autoOpacitiesOf properties) = none) :
    ∃ w', load assertionsEnabled env ⟨some logic⟩ properties w = Outcome.returned false w' ∧
      w'.loadedNodes = [] ∧ w'.scene = w.scene ∧
      w'.calls = w.calls ++ [Call.LoadSegmentationFromFile
        (constData (toLatin1 (fileNameOf properties))) (autoOpacitiesOf properties)] := by
  rw [load_other_branch assertionsEnabled env logic properties w hfile hext, hnone]
  exact ⟨_, rfl, rfl, rfl, rfl⟩

theorem load_other_no_object_witness :
    IOProperties.contains [("fileName", QVariant.string "/data/liver.seg.nrrd"),
      ("name", QVariant.string "Liver")] "fileName" = true ∧
    GetLowercaseExtensionFromFileName (fileNameOf [("fileName", QVariant.string "/data/liver.seg.nrrd"),
      ("name", QVariant.string "Liver")]) ≠ ".stl" ∧
    ∃ w', load true sampleEnv ⟨some failingLogic⟩ [("fileName", QVariant.string "/data/liver.seg.nrrd"),
        ("name", QVariant.string "Liver")] sampleWorld = Outcome.returned false w' ∧
      w'.loadedNodes = [] ∧ w'.scene = sampleWorld.scene ∧
      w'.calls = sampleWorld.calls ++ [Call.LoadSegmentationFromFile
        (constData (toLatin1 (fileNameOf [("fileName", QVariant.string "/data/liver.seg.nrrd"),
          ("name", QVariant.string "Liver")])))
        (autoOpacitiesOf [("fileName", QVariant.string "/data/liver.seg.nrrd"),
          ("name", QVariant.string "Liver")])] :=
  ⟨by decide, by decide,
    load_other_no_object true sampleEnv failingLogic _ sampleWorld (by decide) (by decide) rfl⟩

/-- C3, as the code has it: for a file whose lowercase extension is `.stl`, with the logic
configured, when the mesh reader yields no output object (a null pointer) `load` returns false
and creates no segmentation object: the scene is unchanged and the scene was not called. -/
theorem load_stl_no_output (assertionsEnabled : Bool) (env : Environment)
    (logic : vtkSlicerSegmentationsModuleLogic) (properties : IOProperties) (w : World)
    (hfile : properties.contains "fileName" = true)
    (hext : GetLowercaseExtensionFromFileName (fileNameOf properties) = ".stl")
    (hnone : env.stlReaderOutput (c_str (fileNameOf properties)) = none) :
    ∃ w', load assertionsEnabled env ⟨some logic⟩ properties w = Outcome.returned false w' ∧
      w'.loadedNodes = [] ∧ w'.scene = w.scene ∧
      w'.calls = w.calls ++ [Call.stlReaderUpdate (c_str (fileNameOf properties))] := by
  rw [load_stl_branch assertionsEnabled env logic properties w hfile hext, hnone]
  exact ⟨_, rfl, rfl, rfl, rfl⟩

theorem load_stl_no_output_witness :
    IOProperties.contains [("fileName", QVariant.string "/data/liver.stl")] "fileName" = true ∧
    GetLowercaseExtensionFromFileName (fileNameOf [("fileName", QVariant.string "/data/liver.stl")])
      = ".stl" ∧
    ∃ w', load true noOutputEnv ⟨some sampleLogic⟩ [("fileName", QVariant.string "/data/liver.stl")]
        sampleWorld = Outcome.returned false w' ∧
      w'.loadedNodes = [] ∧ w'.scene = sampleWorld.scene ∧
      w'.calls = sampleWorld.calls ++
        [Call.stlReaderUpdate (c_str (fileNameOf [("fileName", QVariant.string "/data/liver.stl")]))] :=
  ⟨by decide, by decide,
    load_stl_no_output true noOutputEnv sampleLogic _ sampleWorld (by decide) (by decide) rfl⟩

/-- C3 as stated fails: the reader yields a mesh object with no points and no triangles for
`/data/liver.stl`, and `load` returns true after creating a segmentation node in the scene. -/
theorem load_stl_empty_mesh_succeeds :
    emptyOutputEnv.stlReaderOutput "/data/liver.stl" = some ⟨[], []⟩ ∧
    load true emptyOutputEnv ⟨some sampleLogic⟩ [("fileName", QVariant.string "/data/liver.stl")]
        ⟨[], ⟨[]⟩, []⟩ =
      Outcome.returned true
        ⟨["vtkMRMLSegmentationNode1"],
         ⟨[⟨"vtkMRMLSegmentationNode1", "liver", "Closed surface",
            [⟨"liver", [("Closed surface", ⟨[], []⟩)]⟩], some ⟨"Closed surface"⟩⟩]⟩,
         [Call.stlReaderUpdate "/data/liver.stl",
          Call.AddNewNodeByClass "vtkMRMLSegmentationNode" "liver"]⟩ := by
  decide

/-! ## The STL branch -/

/-- C4: an `.stl` load with the logic configured, for which the reader yields a mesh and the
scene creates the node, returns true; the loaded-node list is exactly the identifier of the
node newly appended to the scene; that node has closed surface as master representation; the
segment added to it carries the mesh read from the file as its closed-surface representation.
The environment is arbitrary, so this holds with and without a display node; a display node
that exists prefers the closed surface for 2D display. -/
theorem load_stl_success (assertionsEnabled : Bool) (env : Environment)
    (logic : vtkSlicerSegmentationsModuleLogic) (properties : IOProperties) (w : World)
    (mesh : vtkPolyData) (created : vtkMRMLSegmentationNode)
    (hfile : properties.contains "fileName" = true)
    (hext : GetLowercaseExtensionFromFileName (fileNameOf properties) = ".stl")
    (hmesh : env.stlReaderOutput (c_str (fileNameOf properties)) = some mesh)
    (hnode : env.AddNewNodeByClass w.scene "vtkMRMLSegmentationNode" (stlNameOf properties)
      = some created) :
    ∃ w' node segment,
      load assertionsEnabled env ⟨some logic⟩ properties w = Outcome.returned true w' ∧
      w'.scene.nodes = w.scene.nodes ++ [node] ∧ node.ID = created.ID ∧
      w'.loadedNodes = [node.ID] ∧
      node.MasterRepresentationName = closedSurfaceRepresentationName ∧
      node.Segments = created.Segments ++ [segment] ∧
      segment.Representations = [(closedSurfaceRepresentationName, mesh)] ∧
      (∀ display, node.DisplayNode = some display →
        display.PreferredDisplayRepresentationName2D = closedSurfaceRepresentationName) := by
  rw [load_stl_branch assertionsEnabled env logic properties w hfile hext, hmesh]
  simp only [hnode]
  refine ⟨_, _, _, rfl, rfl, rfl, rfl, rfl, rfl, rfl, ?_⟩
  intro display hd
  change Option.map (fun _ => vtkMRMLSegmentationDisplayNode.mk closedSurfaceRepresentationName) _
    = some display at hd
  obtain ⟨_, _, hd⟩ := Option.map_eq_some'.1 hd
  rw [← hd]

theorem load_stl_success_witness :
    stlRequest.contains "fileName" = true ∧
    GetLowercaseExtensionFromFileName (fileNameOf stlRequest) = ".stl" ∧
    sampleEnv.stlReaderOutput (c_str (fileNameOf stlRequest)) = some sampleMesh ∧
    ∃ w' node segment,
      load true sampleEnv ⟨some sampleLogic⟩ stlRequest sampleWorld = Outcome.returned true w' ∧
      w'.scene.nodes = sampleWorld.scene.nodes ++ [node] ∧
      node.ID = "vtkMRMLSegmentationNode1" ∧
      w'.loadedNodes = [node.ID] ∧
      node.MasterRepresentationName = closedSurfaceRepresentationName ∧
      node.Segments = [] ++ [segment] ∧
      segment.Representations = [(closedSurfaceRepresentationName, sampleMesh)] ∧
      (∀ display, node.DisplayNode = some display →
        display.PreferredDisplayRepresentationName2D = closedSurfaceRepresentationName) :=
  ⟨by decide, by decide, rfl,
    load_stl_success true sampleEnv sampleLogic stlRequest sampleWorld sampleMesh
      { sampleNode with Name := stlNameOf stlRequest } (by decide) (by decide) rfl rfl⟩

/-- C5, as the code has it: for an `.stl` load that yields a mesh where the bag has no `name`
key, the name requested from the scene for the new node, and given to the segment, is the
Latin-1 C string of `QFileInfo::baseName`: the file name without its directory, cut at its
first `.`.  For every path `dir/stem.stl` whose `stem` holds no `/`, no `.` and only Latin-1
characters other than NUL, that name is `stem`. -/
theorem load_stl_default_name (assertionsEnabled : Bool) (env : Environment)
    (logic : vtkSlicerSegmentationsModuleLogic) (properties : IOProperties) (w : World)
    (mesh : vtkPolyData)
    (hfile : properties.contains "fileName" = true)
    (hname : properties.contains "name" = false)
    (hext : GetLowercaseExtensionFromFileName (fileNameOf properties) = ".stl")
    (hmesh : env.stlReaderOutput (c_str (fileNameOf properties)) = some mesh) :
    newCalls w.calls.length (load assertionsEnabled env ⟨some logic⟩ properties w).world =
      [Call.stlReaderUpdate (c_str (fileNameOf properties)),
       Call.AddNewNodeByClass "vtkMRMLSegmentationNode"
        (constData (toLatin1 (baseName (fileNameOf properties))))] ∧
    (∀ w', load assertionsEnabled env ⟨some logic⟩ properties w = Outcome.returned true w' →
      ∃ node earlier, w'.scene.nodes = w.scene.nodes ++ [node] ∧
        node.Segments = earlier ++ [⟨constData (toLatin1 (baseName (fileNameOf properties))),
          [(closedSurfaceRepresentationName, mesh)]⟩]) ∧
    (∀ dir stem : String, fileNameOf properties = dir ++ "/" ++ stem ++ ".stl" →
      (∀ c ∈ stem.data, c ≠ '/' ∧ c ≠ '.') → isLatin1CString stem →
      constData (toLatin1 (baseName (fileNameOf properties))) = stem) := by
  have hn : stlNameOf properties = constData (toLatin1 (baseName (fileNameOf properties))) := by
    simp [stlNameOf, hname]
  rw [load_stl_branch assertionsEnabled env logic properties w hfile hext, hmesh, hn]
  refine ⟨?_, ?_, ?_⟩
  · cases env.AddNewNodeByClass w.scene "vtkMRMLSegmentationNode"
        (constData (toLatin1 (baseName (fileNameOf properties)))) <;>
      exact newCalls_append _ _ _ _
  · intro w' hw
    cases hc : env.AddNewNodeByClass w.scene "vtkMRMLSegmentationNode"
        (constData (toLatin1 (baseName (fileNameOf properties)))) with
    | none => simp [hc] at hw
    | some created =>
      simp only [hc, Outcome.returned.injEq, true_and] at hw
      subst hw
      exact ⟨_, created.Segments, rfl, rfl⟩
  · intro dir stem hpath hstem hlatin
    rw [hpath, baseName_of_stem dir stem hstem, constData_toLatin1 stem hlatin]

theorem load_stl_default_name_witness :
    stlRequest.contains "fileName" = true ∧ stlRequest.contains "name" = false ∧
    GetLowercaseExtensionFromFileName (fileNameOf stlRequest) = ".stl" ∧
    sampleEnv.stlReaderOutput (c_str (fileNameOf stlRequest)) = some sampleMesh ∧
    newCalls sampleWorld.calls.length
        (load true sampleEnv ⟨some sampleLogic⟩ stlRequest sampleWorld).world =
      [Call.stlReaderUpdate (c_str (fileNameOf stlRequest)),
       Call.AddNewNodeByClass "vtkMRMLSegmentationNode"
        (constData (toLatin1 (baseName (fileNameOf stlRequest))))] ∧
    constData (toLatin1 (baseName (fileNameOf stlRequest))) = "liver" :=
  ⟨by decide, by decide, by decide, rfl,
    (load_stl_default_name true sampleEnv sampleLogic stlRequest sampleWorld sampleMesh
      (by decide) (by decide) (by decide) rfl).1,
    (load_stl_default_name true sampleEnv sampleLogic stlRequest sampleWorld sampleMesh
      (by decide) (by decide) (by decide) rfl).2.2 "/data" "liver" (by decide) (by decide)
      (by decide)⟩

/-- C5 as stated fails: for the path `/data/liver.v2.stl`, of the form `dir/stem.stl` with stem
`liver.v2`, the name requested for the node and given to the segment is `liver`. -/
theorem load_stl_default_name_cut_at_first_dot :
    load true sampleEnv ⟨some sampleLogic⟩ [("fileName", QVariant.string "/data/liver.v2.stl")]
        ⟨[], ⟨[]⟩, []⟩ =
      Outcome.returned true
        ⟨["vtkMRMLSegmentationNode1"],
         ⟨[⟨"vtkMRMLSegmentationNode1", "liver", "Closed surface",
            [⟨"liver", [("Closed surface", sampleMesh)]⟩], some ⟨"Closed surface"⟩⟩]⟩,
         [Call.stlReaderUpdate "/data/liver.v2.stl",
          Call.AddNewNodeByClass "vtkMRMLSegmentationNode" "liver"]⟩ ∧
    "/data/liver.v2.stl" = "/data" ++ "/" ++ "liver.v2" ++ ".stl" ∧ "liver" ≠ "liver.v2" := by
  decide

/-- C6, as the code has it: for an `.stl` load that yields a mesh where the bag has a `name`
key, the name requested from the scene for the new node, and given to the segment, is the
Latin-1 C string of the given value, whatever the file name is; it is the given value itself
for every value made of Latin-1 characters other than NUL.  `load` does not ask the scene for a
unique name: the reader call and the node creation are the only collaborator calls. -/
theorem load_stl_explicit_name (assertionsEnabled : Bool) (env : Environment)
    (logic : vtkSlicerSegmentationsModuleLogic) (properties : IOProperties) (w : World)
    (mesh : vtkPolyData)
    (hfile : properties.contains "fileName" = true)
    (hname : properties.contains "name" = true)
    (hext : GetLowercaseExtensionFromFileName (fileNameOf properties) = ".stl")
    (hmesh : env.stlReaderOutput (c_str (fileNameOf properties)) = some mesh) :
    newCalls w.calls.length (load assertionsEnabled env ⟨some logic⟩ properties w).world =
      [Call.stlReaderUpdate (c_str (fileNameOf properties)),
       Call.AddNewNodeByClass "vtkMRMLSegmentationNode"
        (constData (toLatin1 (properties.value "name").toString))] ∧
    (∀ w', load assertionsEnabled env ⟨some logic⟩ properties w = Outcome.returned true w' →
      ∃ node earlier, w'.scene.nodes = w.scene.nodes ++ [node] ∧
        node.Segments = earlier ++ [⟨constData (toLatin1 (properties.value "name").toString),
          [(closedSurfaceRepresentationName, mesh)]⟩]) ∧
    (isLatin1CString (properties.value "name").toString →
      constData (toLatin1 (properties.value "name").toString) = (properties.value "name").toString) ∧
    (∀ c ∈ newCalls w.calls.length (load assertionsEnabled env ⟨some logic⟩ properties w).world,
      ∀ asked, c ≠ Call.GetUniqueNameByString asked) := by
  have hn : stlNameOf properties = constData (toLatin1 (properties.value "name").toString) := by
    simp [stlNameOf, hname]
  have hcalls : newCalls w.calls.length (load assertionsEnabled env ⟨some logic⟩ properties w).world =
      [Call.stlReaderUpdate (c_str (fileNameOf properties)),
       Call.AddNewNodeByClass "vtkMRMLSegmentationNode"
        (constData (toLatin1 (properties.value "name").toString))] := by
    rw [load_stl_branch assertionsEnabled env logic properties w hfile hext, hmesh, hn]
    cases env.AddNewNodeByClass w.scene "vtkMRMLSegmentationNode"
        (constData (toLatin1 (properties.value "name").toString)) <;>
      exact newCalls_append _ _ _ _
  refine ⟨hcalls, ?_, constData_toLatin1 _, ?_⟩
  · rw [load_stl_branch assertionsEnabled env logic properties w hfile hext, hmesh, hn]
    intro w' hw
    cases hc : env.AddNewNodeByClass w.scene "vtkMRMLSegmentationNode"
        (constData (toLatin1 (properties.value "name").toString)) with
    | none => simp [hc] at hw
    | some created =>
      simp only [hc, Outcome.returned.injEq, true_and] at hw
      subst hw
      exact ⟨_, created.Segments, rfl, rfl⟩
  · rw [hcalls]
    intro c hc asked hEq
    subst hEq
    simp at hc

theorem load_stl_explicit_name_witness :
    namedStlRequest.contains "fileName" = true ∧ namedStlRequest.contains "name" = true ∧
    GetLowercaseExtensionFromFileName (fileNameOf namedStlRequest) = ".stl" ∧
    sampleEnv.stlReaderOutput (c_str (fileNameOf namedStlRequest)) = some sampleMesh ∧
    newCalls sampleWorld.calls.length
        (load true sampleEnv ⟨some sampleLogic⟩ namedStlRequest sampleWorld).world =
      [Call.stlReaderUpdate (c_str (fileNameOf namedStlRequest)),
       Call.AddNewNodeByClass "vtkMRMLSegmentationNode"
        (constData (toLatin1 (namedStlRequest.value "name").toString))] ∧
    constData (toLatin1 (namedStlRequest.value "name").toString) = "Tumor" :=
  ⟨by decide, by decide, by decide, rfl,
    (load_stl_explicit_name true sampleEnv sampleLogic namedStlRequest sampleWorld sampleMesh
      (by decide) (by decide) (by decide) rfl).1,
    (load_stl_explicit_name true sampleEnv sampleLogic namedStlRequest sampleWorld sampleMesh
      (by decide) (by decide) (by decide) rfl).2.2.1 (by decide)⟩

/-- C6 as stated fails: for the name value `Σ1`, whose first character has no Latin-1
encoding, the name requested for the node and given to the segment is `?1`. -/
theorem load_stl_explicit_name_not_latin1 :
    load true sampleEnv ⟨some sampleLogic⟩
        [("fileName", QVariant.string "/data/liver.stl"), ("name", QVariant.string "Σ1")]
        ⟨[], ⟨[]⟩, []⟩ =
      Outcome.returned true
        ⟨["vtkMRMLSegmentationNode1"],
         ⟨[⟨"vtkMRMLSegmentationNode1", "?1", "Closed surface",
            [⟨"?1", [("Closed surface", sampleMesh)]⟩], some ⟨"Closed surface"⟩⟩]⟩,
         [Call.stlReaderUpdate "/data/liver.stl",
          Call.AddNewNodeByClass "vtkMRMLSegmentationNode" "?1"]⟩ ∧
    "?1" ≠ "Σ1" := by
  decide

/-! ## The branch for all other extensions -/

/-- C7, as the code has it: for a load of a file whose lowercase extension is not `.stl`, with
the loading subsystem returning a node: when the bag has a `name` key, `load` returns true and
the stored name of the node is the C string of what `GetUniqueNameByString` answers for the
Latin-1 C string of the requested name; for a requested name made of Latin-1 characters other
than NUL and an answer without NUL, the stored name is the answer for the requested name.  When
the bag has no `name` key the node is in the scene as the loading subsystem produced it. -/
theorem load_other_name (assertionsEnabled : Bool) (env : Environment)
    (logic : vtkSlicerSegmentationsModuleLogic) (properties : IOProperties) (w : World)
    (loaded : vtkMRMLSegmentationNode)
    (hfile : properties.contains "fileName" = true)
    (hext : GetLowercaseExtensionFromFileName (fileNameOf properties) ≠ ".stl")
    (hload : logic.LoadSegmentationFromFile w.scene (constData (toLatin1 (fileNameOf properties)))
      (autoOpacitiesOf properties) = some loaded) :
    (properties.contains "name" = true →
      ∃ w' node, load assertionsEnabled env ⟨some logic⟩ properties w = Outcome.returned true w' ∧
        w'.scene.nodes = w.scene.nodes ++ [node] ∧
        node = { loaded with Name := c_str (env.GetUniqueNameByString ⟨w.scene.nodes ++ [loaded]⟩
          (constData (toLatin1 (properties.value "name").toString))) } ∧
        (isLatin1CString (properties.value "name").toString →
          (∀ c ∈ (env.GetUniqueNameByString ⟨w.scene.nodes ++ [loaded]⟩
            (properties.value "name").toString).data, c ≠ Char.ofNat 0) →
          node.Name = env.GetUniqueNameByString ⟨w.scene.nodes ++ [loaded]⟩
            (properties.value "name").toString)) ∧
    (properties.contains "name" = false →
      ∃ w', load assertionsEnabled env ⟨some logic⟩ properties w = Outcome.returned true w' ∧
        w'.scene.nodes = w.scene.nodes ++ [loaded]) := by
  rw [load_other_branch assertionsEnabled env logic properties w hfile hext, hload]
  constructor
  · intro hn
    simp only [hn, if_true]
    refine ⟨_, _, rfl, rfl, rfl, ?_⟩
    intro hlatin hnul
    show c_str _ = _
    rw [constData_toLatin1 _ hlatin, c_str_of_no_nul _ hnul]
  · intro hn
    simp only [hn, Bool.false_eq_true, if_false]
    exact ⟨_, rfl, rfl⟩

theorem load_other_name_witness :
    namedNrrdRequest.contains "fileName" = true ∧
    GetLowercaseExtensionFromFileName (fileNameOf namedNrrdRequest) ≠ ".stl" ∧
    namedNrrdRequest.contains "name" = true ∧
    ∃ w' node, load true sampleEnv ⟨some sampleLogic⟩ namedNrrdRequest sampleWorld
        = Outcome.returned true w' ∧
      w'.scene.nodes = sampleWorld.scene.nodes ++ [node] ∧
      node = { sampleNode with Name := c_str (sampleEnv.GetUniqueNameByString
        ⟨sampleWorld.scene.nodes ++ [sampleNode]⟩
        (constData (toLatin1 (namedNrrdRequest.value "name").toString))) } ∧
      (isLatin1CString (namedNrrdRequest.value "name").toString →
        (∀ c ∈ (sampleEnv.GetUniqueNameByString ⟨sampleWorld.scene.nodes ++ [sampleNode]⟩
          (namedNrrdRequest.value "name").toString).data, c ≠ Char.ofNat 0) →
        node.Name = sampleEnv.GetUniqueNameByString ⟨sampleWorld.scene.nodes ++ [sampleNode]⟩
          (namedNrrdRequest.value "name").toString) :=
  ⟨by decide, by decide, by decide,
    (load_other_name true sampleEnv sampleLogic namedNrrdRequest sampleWorld sampleNode
      (by decide) (by decide) rfl).1 (by decide)⟩

/-- C7 as stated fails: for the requested name `Σ1` the node ends up named `?1_1`, which is
not what the unique-name function answers for the requested name. -/
theorem load_other_name_not_latin1 :
    load true sampleEnv ⟨some sampleLogic⟩
        [("fileName", QVariant.string "/data/liver.seg.nrrd"), ("name", QVariant.string "Σ1")]
        ⟨[], ⟨[]⟩, []⟩ =
      Outcome.returned true
        ⟨["vtkMRMLSegmentationNode1"],
         ⟨[⟨"vtkMRMLSegmentationNode1", "?1_1", "Binary labelmap", [], none⟩]⟩,
         [Call.LoadSegmentationFromFile "/data/liver.seg.nrrd" true,
          Call.GetUniqueNameByString "?1"]⟩ ∧
    sampleEnv.GetUniqueNameByString ⟨[sampleNode]⟩ "Σ1" = "Σ1_1" ∧ "?1_1" ≠ "Σ1_1" := by
  decide

/-- C8, as the code has it: with the logic configured, a load of a file whose lowercase
extension is not `.stl` calls the loading subsystem exactly once, as its first collaborator
call, with the Latin-1 C string of the `fileName` property (the property itself when it is made
of Latin-1 characters other than NUL) and with the auto-opacity flag, which is the
`autoOpacities` property when that key is present and true when it is absent.  For a file whose
lowercase extension is `.stl` the loading subsystem is not called, and every file name ending
in a dot followed by `stl` in any letter case has that lowercase extension. -/
theorem load_logic_calls (assertionsEnabled : Bool) (env : Environment)
    (logic : vtkSlicerSegmentationsModuleLogic) (properties : IOProperties) (w : World)
    (hfile : properties.contains "fileName" = true) :
    (GetLowercaseExtensionFromFileName (fileNameOf properties) ≠ ".stl" →
      ∃ later, newCalls w.calls.length
          (load assertionsEnabled env ⟨some logic⟩ properties w).world =
        Call.LoadSegmentationFromFile (constData (toLatin1 (fileNameOf properties)))
          (autoOpacitiesOf properties) :: later ∧
        ∀ c ∈ later, c.isLogicCall = false) ∧
    (isLatin1CString (fileNameOf properties) →
      constData (toLatin1 (fileNameOf properties)) = fileNameOf properties) ∧
    (∀ flag, properties.contains "autoOpacities" = true →
      properties.value "autoOpacities" = QVariant.bool flag → autoOpacitiesOf properties = flag) ∧
    (properties.contains "autoOpacities" = false → autoOpacitiesOf properties = true) ∧
    (GetLowercaseExtensionFromFileName (fileNameOf properties) = ".stl" →
      ∀ c ∈ newCalls w.calls.length (load assertionsEnabled env ⟨some logic⟩ properties w).world,
        c.isLogicCall = false) ∧
    (∀ pre ext : String, fileNameOf properties = pre ++ "." ++ ext →
      ext.data.map Char.toLower = ['s', 't', 'l'] →
      GetLowercaseExtensionFromFileName (fileNameOf properties) = ".stl") := by
  refine ⟨?_, constData_toLatin1 _, ?_, ?_, ?_, ?_⟩
  · intro hext
    rw [load_other_branch assertionsEnabled env logic properties w hfile hext]
    cases logic.LoadSegmentationFromFile w.scene (constData (toLatin1 (fileNameOf properties)))
        (autoOpacitiesOf properties) with
    | none => exact ⟨[], newCalls_append _ _ _ _, by simp⟩
    | some loaded =>
      by_cases hn : properties.contains "name" = true
      · simp only [hn, if_true]
        exact ⟨[Call.GetUniqueNameByString _], newCalls_append _ _ _ _, by simp [Call.isLogicCall]⟩
      · simp only [hn, Bool.false_eq_true, if_false]
        exact ⟨[], newCalls_append _ _ _ _, by simp⟩
  · intro flag hc hv
    simp [autoOpacitiesOf, hc, hv, QVariant.toBool]
  · intro hc
    simp [autoOpacitiesOf, hc]
  · intro hext
    rw [load_stl_branch assertionsEnabled env logic properties w hfile hext]
    cases env.stlReaderOutput (c_str (fileNameOf properties)) with
    | none =>
      show ∀ c ∈ newCalls w.calls.length ⟨_, _, w.calls ++ _⟩, _
      rw [newCalls_append]
      simp [Call.isLogicCall]
    | some mesh =>
      cases env.AddNewNodeByClass w.scene "vtkMRMLSegmentationNode" (stlNameOf properties) with
      | none =>
        show ∀ c ∈ newCalls w.calls.length ⟨_, _, w.calls ++ _⟩, _
        rw [newCalls_append]
        simp [Call.isLogicCall]
      | some created =>
        show ∀ c ∈ newCalls w.calls.length ⟨_, _, w.calls ++ _⟩, _
        rw [newCalls_append]
        simp [Call.isLogicCall]
  · intro pre ext hpath hlower
    rw [hpath]
    exact GetLowercaseExtensionFromFileName_stl pre ext hlower

theorem load_logic_calls_witness :
    plainNrrdRequest.contains "fileName" = true ∧
    (∃ later, newCalls sampleWorld.calls.length
        (load true sampleEnv ⟨some sampleLogic⟩ plainNrrdRequest sampleWorld).world =
      Call.LoadSegmentationFromFile (constData (toLatin1 (fileNameOf plainNrrdRequest)))
        (autoOpacitiesOf plainNrrdRequest) :: later ∧
      ∀ c ∈ later, c.isLogicCall = false) ∧
    constData (toLatin1 (fileNameOf plainNrrdRequest)) = fileNameOf plainNrrdRequest ∧
    autoOpacitiesOf plainNrrdRequest = false :=
  ⟨by decide,
    (load_logic_calls true sampleEnv sampleLogic plainNrrdRequest sampleWorld (by decide)).1
      (by decide),
    (load_logic_calls true sampleEnv sampleLogic plainNrrdRequest sampleWorld (by decide)).2.1
      (by decide),
    (load_logic_calls true sampleEnv sampleLogic plainNrrdRequest sampleWorld (by decide)).2.2.1
      false (by decide) rfl⟩

/-- C8 as stated fails: for the file name `/data/Σ.seg.nrrd` the loading subsystem is called
with the path `/data/?.seg.nrrd`, which is not the `fileName` property. -/
theorem load_logic_path_not_latin1 :
    load true sampleEnv ⟨some sampleLogic⟩ [("fileName", QVariant.string "/data/Σ.seg.nrrd")]
        ⟨[], ⟨[]⟩, []⟩ =
      Outcome.returned true
        ⟨["vtkMRMLSegmentationNode1"], ⟨[sampleNode]⟩,
         [Call.LoadSegmentationFromFile "/data/?.seg.nrrd" true]⟩ ∧
    fileNameOf [("fileName", QVariant.string "/data/Σ.seg.nrrd")] = "/data/Σ.seg.nrrd" ∧
    "/data/?.seg.nrrd" ≠ "/data/Σ.seg.nrrd" := by
  decide

/-! ## The list of loaded nodes and the precondition -/

/-- C9: when the bag contains `fileName`, the outcome of `load` does not depend on what the
loaded-node list held before; when `load` returns, the list has at most one element: it is
empty if `load` returned false, and if `load` returned true it holds exactly the identifier of
the one node this call appended to the scene. -/
theorem load_loadedNodes (assertionsEnabled : Bool) (env : Environment)
    (d : qSlicerSegmentationsReaderPrivate) (properties : IOProperties) (w : World)
    (hfile : properties.contains "fileName" = true) :
    (∀ before, load assertionsEnabled env d properties { w with loadedNodes := before }
      = load assertionsEnabled env d properties w) ∧
    (∀ result w', load assertionsEnabled env d properties w = Outcome.returned result w' →
      w'.loadedNodes.length ≤ 1 ∧
      (result = false → w'.loadedNodes = []) ∧
      (result = true → ∃ node, w'.scene.nodes = w.scene.nodes ++ [node] ∧
        w'.loadedNodes = [node.ID])) := by
  constructor
  · intro before
    simp only [load, hfile, Bool.not_true, Bool.and_false, Bool.false_eq_true, if_false]
    rfl
  · intro result w' hw
    obtain ⟨logic⟩ := d
    cases logic with
    | none =>
      rw [load_no_logic_branch assertionsEnabled env properties w hfile] at hw
      simp only [Outcome.returned.injEq] at hw
      obtain ⟨hr, hw⟩ := hw
      subst hr hw
      simp
    | some logic =>
      by_cases hext : GetLowercaseExtensionFromFileName (fileNameOf properties) = ".stl"
      · rw [load_stl_branch assertionsEnabled env logic properties w hfile hext] at hw
        cases hm : env.stlReaderOutput (c_str (fileNameOf properties)) with
        | none =>
          simp only [hm, Outcome.returned.injEq] at hw
          obtain ⟨hr, hw⟩ := hw
          subst hr hw
          simp
        | some mesh =>
          cases hc : env.AddNewNodeByClass w.scene "vtkMRMLSegmentationNode" (stlNameOf properties) with
          | none => simp [hm, hc] at hw
          | some created =>
            simp only [hm, hc, Outcome.returned.injEq] at hw
            obtain ⟨hr, hw⟩ := hw
            subst hr hw
            exact ⟨by simp, by simp, fun _ => ⟨_, rfl, rfl⟩⟩
      · rw [load_other_branch assertionsEnabled env logic properties w hfile hext] at hw
        cases hl : logic.LoadSegmentationFromFile w.scene
            (constData (toLatin1 (fileNameOf properties))) (autoOpacitiesOf properties) with
        | none =>
          simp only [hl, Outcome.returned.injEq] at hw
          obtain ⟨hr, hw⟩ := hw
          subst hr hw
          simp
        | some loaded =>
          by_cases hn : properties.contains "name" = true
          · simp only [hl, hn, if_true, Outcome.returned.injEq] at hw
            obtain ⟨hr, hw⟩ := hw
            subst hr hw
            exact ⟨by simp, by simp, fun _ => ⟨_, rfl, rfl⟩⟩
          · simp only [hl, hn, Bool.false_eq_true, if_false, Outcome.returned.injEq] at hw
            obtain ⟨hr, hw⟩ := hw
            subst hr hw
            exact ⟨by simp, by simp, fun _ => ⟨_, rfl, rfl⟩⟩

theorem load_loadedNodes_witness :
    namedNrrdRequest.contains "fileName" = true ∧
    load true sampleEnv ⟨some sampleLogic⟩ namedNrrdRequest
        { sampleWorld with loadedNodes := ["vtkMRMLSegmentationNode3", "vtkMRMLSegmentationNode4"] }
      = load true sampleEnv ⟨some sampleLogic⟩ namedNrrdRequest sampleWorld ∧
    ∃ node, [{ sampleNode with Name := "Liver_1" }] = sampleWorld.scene.nodes ++ [node] ∧
      ["vtkMRMLSegmentationNode1"] = [node.ID] :=
  ⟨by decide,
    (load_loadedNodes true sampleEnv ⟨some sampleLogic⟩ namedNrrdRequest sampleWorld
      (by decide)).1 _,
    ((load_loadedNodes true sampleEnv ⟨some sampleLogic⟩ namedNrrdRequest sampleWorld
      (by decide)).2 true
      ⟨["vtkMRMLSegmentationNode1"], ⟨[{ sampleNode with Name := "Liver_1" }]⟩,
        [Call.LoadSegmentationFromFile "/data/liver.seg.nrrd" true,
         Call.GetUniqueNameByString "Liver"]⟩ (by decide)).2.2 rfl⟩

/-- C10, as the code has it: in a build where `Q_ASSERT` is compiled in, for every bag that
lacks the `fileName` key `load` stops at the assertion: the loaded-node list, the scene and the
log of collaborator calls are those from before the call, and no result is returned. -/
theorem load_missing_fileName (env : Environment) (d : qSlicerSegmentationsReaderPrivate)
    (properties : IOProperties) (w : World)
    (hfile : properties.contains "fileName" = false) :
    load true env d properties w = Outcome.assertionFailed w ∧
    (load true env d properties w).world.loadedNodes = w.loadedNodes ∧
    (load true env d properties w).world.scene = w.scene ∧
    (load true env d properties w).world.calls = w.calls ∧
    ∀ result w', load true env d properties w ≠ Outcome.returned result w' := by
  have h : load true env d properties w = Outcome.assertionFailed w := by
    simp [load, hfile]
  rw [h]
  exact ⟨rfl, rfl, rfl, rfl, fun _ _ hEq => by cases hEq⟩

theorem load_missing_fileName_witness :
    IOProperties.contains [("name", QVariant.string "Liver")] "fileName" = false ∧
    load true sampleEnv ⟨some sampleLogic⟩ [("name", QVariant.string "Liver")] sampleWorld
      = Outcome.assertionFailed sampleWorld :=
  ⟨by decide,
    (load_missing_fileName sampleEnv ⟨some sampleLogic⟩ [("name", QVariant.string "Liver")]
      sampleWorld (by decide)).1⟩

/-- C10 as stated fails: in a build where `Q_ASSERT` expands to nothing, a bag without
`fileName` is read as the empty file name and `load` runs on.  With a loading subsystem that
finds nothing it resets the loaded-node list, calls the loading subsystem and returns false;
with one that produces a node it also has the node renamed in the scene and returns true. -/
theorem load_missing_fileName_release_build :
    IOProperties.contains [("name", QVariant.string "Liver")] "fileName" = false ∧
    load false sampleEnv ⟨some failingLogic⟩ [("name", QVariant.string "Liver")]
        ⟨["vtkMRMLSegmentationNode7"], ⟨[]⟩, []⟩ =
      Outcome.returned false ⟨[], ⟨[]⟩, [Call.LoadSegmentationFromFile "" true]⟩ ∧
    load false sampleEnv ⟨some sampleLogic⟩ [("name", QVariant.string "Liver")]
        ⟨["vtkMRMLSegmentationNode7"], ⟨[]⟩, []⟩ =
      Outcome.returned true
        ⟨["vtkMRMLSegmentationNode1"],
         ⟨[⟨"vtkMRMLSegmentationNode1", "Liver_1", "Binary labelmap", [], none⟩]⟩,
         [Call.LoadSegmentationFromFile "" true, Call.GetUniqueNameByString "Liver"]⟩ := by
  decide

end Slicer
